import Mathlib

/-!
Verification of the QReviewer review-dispatch pipeline.

Shallow embedding of the code in `qrev/llm_client.py` and `qrev/cli.py`:
the response normalizer, the security heuristic pass, backend client
selection, the per-hunk review wrapper, the CLI review loop, and the
severity aggregation of the `summarize` command.

External collaborators (the `json.loads` library call and the network /
subprocess transports of the three backend adapters) are modelled as
function parameters; everything else follows the Python source line by
line.  Python floats are modelled as exact rationals; the arithmetic the
code performs on them (adding 0.2, capping at 1.0) agrees with rational
arithmetic at every value the claims touch.
-/

namespace QRev

/-- Modelled from the spec: the `Hunk` record of `qrev/models.py`, which is
not part of the provided sources; field names follow the attribute accesses
in `llm_client.py` and `cli.py` (`file_path`, `hunk_header`, `start_line`,
`end_line`, `patch_text`, `language`). -/
structure Hunk where
  file_path : String
  hunk_header : String
  start_line : Nat
  end_line : Nat
  patch_text : String
  language : Option String
deriving DecidableEq

/-- Modelled from the spec: the `Finding` record of `qrev/models.py`, which is
not part of the provided sources; field names follow the keyword arguments of
the `Finding(...)` constructor calls in `llm_client.py`.  `confidence` is the
Python float, modelled as an exact rational. -/
structure Finding where
  file : String
  hunk_header : String
  severity : String
  category : String
  message : String
  confidence : ℚ
  suggested_patch : Option String
  line_hint : Nat
deriving DecidableEq

/-- Modelled from the spec: the `ReviewStats` record of `qrev/models.py`
(counts per severity plus total, each starting at zero, as required by the
`stats = ReviewStats()` / `stats.blocking += 1` usage in `cli.py`). -/
structure ReviewStats where
  blocking : Nat := 0
  major : Nat := 0
  minor : Nat := 0
  nit : Nat := 0
  total : Nat := 0
deriving DecidableEq

/-! ## JSON values and the outcome of `json.loads`

`json.loads` is the Python standard library, external to the repository, so
it is modelled abstractly: a parser is any function from strings to a parse
outcome, which is either a decode failure (the `json.JSONDecodeError` branch)
or a structured JSON value. -/

/-- A parsed JSON value, the possible results of a successful `json.loads`. -/
inductive Json where
  | null : Json
  | bool (b : Bool) : Json
  | num (q : ℚ) : Json
  | str (s : String) : Json
  | arr (xs : List Json) : Json
  | obj (fields : List (String × Json)) : Json

/-- The outcome of `json.loads(response_text)`: either a `JSONDecodeError`
or a parsed value. -/
inductive ParsedResponse where
  | jsonError : ParsedResponse
  | value (v : Json) : ParsedResponse

/-- A Python exception as far as the model needs it. -/
inductive PyExn where
  | nameError (n : String) : PyExn
deriving DecidableEq

/-- The `str(e)` text of a modelled Python exception. -/
def PyExn.text : PyExn → String
  | .nameError n => "NameError: name " ++ n ++ " is not defined"

/-- `isinstance(x, dict)` on a parsed JSON value. -/
def jsonIsObj : Json → Bool
  | .obj _ => true
  | _ => false

/-! ## The response normalizer (`BaseLLMClient._parse_findings_response`)

`llm_client.py` lines 30-67.  The Python function signature is
`def _parse_findings_response(self, response_text)`: the variable `hunk`
used throughout the body (lines 43, 49-50, 56, 60, 64, 67) is bound
nowhere — not a parameter, not a local, not a module global — so evaluating
it raises `NameError`.  The `except Exception` handler at line 65 catches
the `NameError` raised inside the `try` block, but its own body (line 67)
evaluates `hunk` again and the second `NameError` propagates; the
`except json.JSONDecodeError` handler (line 64) evaluates `hunk` likewise.
Every control path therefore ends in an uncaught `NameError`. -/

/-- Models the loop of lines 46-60.  If some element is a mapping, the first
`Finding(file=hunk.file_path, ...)` construction at lines 48-57 evaluates the
unbound `hunk` (the `except Exception` handler then re-raises `NameError`
from line 67); if no element is a mapping, `findings` stays empty and the
fallback `self._create_dummy_finding(hunk, ...)` at line 60 evaluates the
unbound `hunk` with the same outcome. -/
def parseFindingsList (xs : List Json) : Except PyExn (List Finding) :=
  if xs.any jsonIsObj then
    .error (.nameError "hunk")
  else
    .error (.nameError "hunk")

/-- Models `BaseLLMClient._parse_findings_response` (`llm_client.py` 30-67),
parameterised by the external `json.loads`.  Branches:
list input (line 37), mapping with a `findings` key (line 39), any other
shape (line 43, which evaluates the unbound `hunk`), decode failure
(line 62, whose handler evaluates the unbound `hunk` at line 64). -/
def parseFindingsResponse (jsonLoads : String → ParsedResponse)
    (response_text : String) : Except PyExn (List Finding) :=
  match jsonLoads response_text with
  | .jsonError => .error (.nameError "hunk")
  | .value (.arr xs) => parseFindingsList xs
  | .value (.obj fields) =>
      match fields.lookup "findings" with
      | some (.arr xs) => parseFindingsList xs
      | some _ => .error (.nameError "hunk")
      | none => .error (.nameError "hunk")
  | .value _ => .error (.nameError "hunk")

/-- Models `BaseLLMClient._create_dummy_finding` (`llm_client.py` 69-80):
one diagnostic finding with severity `info`, category `system`,
confidence 0.1, line hint at the end of the hunk. -/
def createDummyFinding (hunk : Hunk) (message : String) : List Finding :=
  [{ file := hunk.file_path
     hunk_header := hunk.hunk_header
     severity := "info"
     category := "system"
     message := "LLM response parsing failed: " ++ message
     confidence := 1/10
     suggested_patch := none
     line_hint := hunk.end_line }]

/-! ## Security heuristic pass (`apply_security_heuristics`, lines 317-339) -/

/-- The fixed keyword list of `llm_client.py` lines 319-323. -/
def securityKeywords : List String :=
  ["password", "secret", "key", "token", "auth", "login", "admin",
   "sql", "injection", "xss", "csrf", "eval", "exec", "shell",
   "file", "upload", "download", "path", "traversal", "overflow"]

/-- `as` is a leading segment of `bs` (character-wise `==`). -/
def charsLeadWith : List Char → List Char → Bool
  | [], _ => true
  | _ :: _, [] => false
  | a :: as, b :: bs => a == b && charsLeadWith as bs

/-- `needle` occurs contiguously inside `hay`: Python's `needle in hay`
substring test on the character lists. -/
def charsContain : List Char → List Char → Bool
  | needle, [] => needle.isEmpty
  | needle, c :: rest => charsLeadWith needle (c :: rest) || charsContain needle rest

/-- `str.lower()` on the character list of a string. -/
def lowerChars (s : String) : List Char :=
  s.data.map Char.toLower

/-- Line 330: `any(keyword in content_lower for keyword in security_keywords)`
where `content_lower = finding.message.lower()` (line 329). -/
def messageMatchesSecurity (msg : String) : Bool :=
  securityKeywords.any (fun kw => charsContain kw.data (lowerChars msg))

/-- The per-finding mutation of `apply_security_heuristics` (lines 327-337):
on a keyword match, a finding not already categorised `security` gets
category `security`; if its severity is `nit` or `minor` it is escalated to
`major` and its confidence raised by 0.2 capped at 1.0. -/
def heuristicStep (f : Finding) : Finding :=
  if messageMatchesSecurity f.message then
    if f.category ≠ "security" then
      if f.severity = "nit" ∨ f.severity = "minor" then
        { f with category := "security", severity := "major",
                 confidence :=
                   if f.confidence + 1/5 ≤ 1 then f.confidence + 1/5 else 1 }
      else
        { f with category := "security" }
    else f
  else f

/-- Models `apply_security_heuristics` (`llm_client.py` 317-339): the list is
traversed once and each finding updated in place; the returned list has the
same entries in the same order. -/
def apply_security_heuristics (findings : List Finding) : List Finding :=
  findings.map heuristicStep

/-! ## Backend adapters and client selection (`llm_client.py` 83-314)

The three adapter classes differ in their transport (SSH subprocess, Bedrock
API, OpenAI API) and in the message of the diagnostic finding they
substitute on failure; each wraps its whole `review_hunk` body in
`try ... except Exception: return self._create_dummy_finding(hunk, ...)`.
The transport is external I/O and is modelled as a function argument
producing either a failure detail or the raw response text. -/

/-- The three adapter classes a supported backend identifier selects. -/
inductive LLMClient where
  | amazonQ : LLMClient
  | bedrock : LLMClient
  | openai : LLMClient
deriving DecidableEq

/-- A failed transport call, carrying the `str(e)` text of the exception the
adapter caught. -/
structure BackendError where
  detail : String
deriving DecidableEq

/-- The message each adapter passes to `_create_dummy_finding` when its
`except Exception` handler catches `e` (`llm_client.py` lines 108, 241,
283). -/
def clientErrorMessage : LLMClient → String → String
  | .amazonQ, e => "Amazon Q CLI error: " ++ e
  | .bedrock, e => "Bedrock error: " ++ e
  | .openai, e => "OpenAI error: " ++ e

/-- Models one adapter `review_hunk` call (`llm_client.py` 90-108, 194-241,
251-283): run the transport; on transport failure substitute the diagnostic
finding; on success parse the raw text, and since `_parse_findings_response`
raises, the `except Exception` handler substitutes the diagnostic finding
built from the raised exception. -/
def clientReviewHunk (jsonLoads : String → ParsedResponse)
    (transport : LLMClient → Hunk → Option String → Except BackendError String)
    (client : LLMClient) (hunk : Hunk) (guidelines : Option String) :
    List Finding :=
  match transport client hunk guidelines with
  | .error e => createDummyFinding hunk (clientErrorMessage client e.detail)
  | .ok raw =>
      match parseFindingsResponse jsonLoads raw with
      | .ok findings => findings
      | .error exn => createDummyFinding hunk (clientErrorMessage client exn.text)

/-- Models `get_llm_client` (`llm_client.py` 286-297): the backend identifier
selects exactly one adapter; anything else raises
`ValueError(f"Unsupported LLM backend: ...")`. -/
def get_llm_client (backend : String) : Except String LLMClient :=
  if backend = "amazon_q" then .ok .amazonQ
  else if backend = "bedrock" then .ok .bedrock
  else if backend = "openai" then .ok .openai
  else .error ("Unsupported LLM backend: " ++ backend)

/-- `True` exactly on the `raise ValueError` branch of `get_llm_client`. -/
def isConfigError : Except String LLMClient → Bool
  | .error _ => true
  | .ok _ => false

/-- Models the module-level `review_hunk` wrapper (`llm_client.py` 301-314):
construct the client (propagating the `ValueError` of `get_llm_client`
before anything touches a backend); if already inside an event loop return
the dummy finding of line 311, otherwise run the adapter call. -/
def review_hunk (backend : String) (inEventLoop : Bool)
    (jsonLoads : String → ParsedResponse)
    (transport : LLMClient → Hunk → Option String → Except BackendError String)
    (hunk : Hunk) (guidelines : Option String) : Except String (List Finding) :=
  match get_llm_client backend with
  | .error e => .error e
  | .ok client =>
      if inEventLoop then
        .ok (createDummyFinding hunk "Async execution not supported in this context")
      else
        .ok (clientReviewHunk jsonLoads transport client hunk guidelines)

/-! ## The CLI review loop (`cli.py` 74-148) -/

/-- One iteration of the loop at `cli.py` 113-120: `review_hunk` succeeds and
its findings are appended, or the exception is caught, a warning printed, and
the hunk contributes nothing. -/
def reviewLoopStep (backend : String) (inEventLoop : Bool)
    (jsonLoads : String → ParsedResponse)
    (transport : LLMClient → Hunk → Option String → Except BackendError String)
    (guidelines : Option String) (acc : List Finding) (hunk : Hunk) :
    List Finding :=
  match review_hunk backend inEventLoop jsonLoads transport hunk guidelines with
  | .ok findings => acc ++ findings
  | .error _ => acc

/-- The `all_findings` accumulation of `cli.py` 104-120: hunks are reviewed
strictly one at a time in submission order. -/
def reviewLoop (backend : String) (inEventLoop : Bool)
    (jsonLoads : String → ParsedResponse)
    (transport : LLMClient → Hunk → Option String → Except BackendError String)
    (hunks : List Hunk) (guidelines : Option String) : List Finding :=
  hunks.foldl (reviewLoopStep backend inEventLoop jsonLoads transport guidelines) []

/-- Models the findings produced by the `review` command (`cli.py` 74-148):
the loop over the hunks followed by the heuristic pass (line 124).  The
`max_concurrency` option is accepted (line 79) exactly as in the source,
where its value is never read in the body. -/
def reviewCommandFindings (backend : String) (inEventLoop : Bool)
    (jsonLoads : String → ParsedResponse)
    (transport : LLMClient → Hunk → Option String → Except BackendError String)
    (hunks : List Hunk) (guidelines : Option String)
    (max_concurrency : Nat) : List Finding :=
  apply_security_heuristics
    (reviewLoop backend inEventLoop jsonLoads transport hunks guidelines)

/-! ## Severity aggregation (`summarize`, `cli.py` 163-173) -/

/-- One iteration of the counting loop at `cli.py` 164-172: exactly one of
the four named buckets is incremented when the severity matches it; any
other severity leaves all buckets unchanged. -/
def statsStep (s : ReviewStats) (f : Finding) : ReviewStats :=
  if f.severity = "blocking" then { s with blocking := s.blocking + 1 }
  else if f.severity = "major" then { s with major := s.major + 1 }
  else if f.severity = "minor" then { s with minor := s.minor + 1 }
  else if f.severity = "nit" then { s with nit := s.nit + 1 }
  else s

/-- Models the stats computation of `summarize` (`cli.py` 163-173): bucket
counts from the loop, then `stats.total = len(findings_report.findings)`. -/
def summarizeStats (findings : List Finding) : ReviewStats :=
  let s := findings.foldl statsStep {}
  { s with total := findings.length }

/-! ## Sample values used by concrete instantiations -/

/-- A concrete hunk. -/
def sampleHunk : Hunk :=
  { file_path := "app.py"
    hunk_header := "@@ -10,4 +10,6 @@"
    start_line := 10
    end_line := 15
    patch_text := "+x = 1"
    language := some "python" }

/-- A transport that always answers with the raw text `[]`. -/
def sampleTransport : LLMClient → Hunk → Option String → Except BackendError String :=
  fun _ _ _ => .ok "[]"

/-- A parser that fails on every input, one concrete model of `json.loads`
on non-JSON text. -/
def failingLoads : String → ParsedResponse :=
  fun _ => .jsonError

/-- A parser on which the raw text `[]` is an empty JSON array. -/
def emptyArrayLoads : String → ParsedResponse :=
  fun _ => .value (.arr [])

/-- The parsed value of a well-formed single-finding response such as
`[{"severity": "major", "category": "logic", "message": "bug",
"confidence": 0.9}]`. -/
def wellFormedFindingJson : Json :=
  .arr [.obj [("severity", .str "major"), ("category", .str "logic"),
              ("message", .str "bug"), ("confidence", .num (9/10))]]

/-- A parser on which every input denotes `wellFormedFindingJson`. -/
def wellFormedLoads : String → ParsedResponse :=
  fun _ => .value wellFormedFindingJson

/-- A finding with the given severity and neutral remaining fields. -/
def findingWithSeverity (sev : String) : Finding :=
  { file := "a.py"
    hunk_header := "@@ -1 +1 @@"
    severity := sev
    category := "general"
    message := "m"
    confidence := 1/2
    suggested_patch := none
    line_hint := 1 }

/-! ## Lemmas about the heuristic pass -/

/-- The heuristic pass never edits the message field. -/
lemma heuristicStep_message (f : Finding) :
    (heuristicStep f).message = f.message := by
  unfold heuristicStep
  split_ifs <;> rfl

/-- A finding already categorised `security` is left untouched: both the
keyword branch (whose inner guard fails) and the no-match branch return the
finding unchanged. -/
lemma heuristicStep_eq_self_of_security (f : Finding)
    (h : f.category = "security") : heuristicStep f = f := by
  unfold heuristicStep
  simp [h]

/-- After the pass, a finding whose message matched a keyword is categorised
`security` (either it already was, or the branch at line 333 set it). -/
lemma heuristicStep_category_of_match (f : Finding)
    (hm : messageMatchesSecurity f.message = true) :
    (heuristicStep f).category = "security" := by
  unfold heuristicStep
  split_ifs <;> simp_all

/-- A finding whose message matches no keyword is left untouched. -/
lemma heuristicStep_eq_self_of_no_match (f : Finding)
    (hm : messageMatchesSecurity f.message = false) : heuristicStep f = f := by
  unfold heuristicStep
  simp [hm]

/-- Applying the per-finding mutation twice gives the same result as once. -/
lemma heuristicStep_idem (f : Finding) :
    heuristicStep (heuristicStep f) = heuristicStep f := by
  by_cases hm : messageMatchesSecurity f.message
  · exact heuristicStep_eq_self_of_security _ (heuristicStep_category_of_match f hm)
  · rw [heuristicStep_eq_self_of_no_match f (by simpa using hm),
        heuristicStep_eq_self_of_no_match f (by simpa using hm)]

/-- All fields other than category, severity and confidence survive the
per-finding mutation unchanged. -/
lemma heuristicStep_frame (f : Finding) :
    f.file = (heuristicStep f).file ∧ f.hunk_header = (heuristicStep f).hunk_header ∧
    f.message = (heuristicStep f).message ∧
    f.suggested_patch = (heuristicStep f).suggested_patch ∧
    f.line_hint = (heuristicStep f).line_hint := by
  unfold heuristicStep
  split_ifs <;> simp

/-- The heuristic pass preserves the length of the finding list. -/
lemma apply_security_heuristics_length (findings : List Finding) :
    (apply_security_heuristics findings).length = findings.length :=
  List.length_map _ _

/-- C5: a single finding with category `general`, severity `minor`,
confidence 0.6 and message "leaked password in config" is escalated by the
security heuristic pass to category `security`, severity `major`,
confidence 0.8, with every other field unchanged. -/
theorem heuristics_escalates_password_finding :
    apply_security_heuristics
        [{ file := "config.py", hunk_header := "@@ -1 +1 @@", severity := "minor",
           category := "general", message := "leaked password in config",
           confidence := 3/5, suggested_patch := none, line_hint := 3 }] =
      [{ file := "config.py", hunk_header := "@@ -1 +1 @@", severity := "major",
         category := "security", message := "leaked password in config",
         confidence := 4/5, suggested_patch := none, line_hint := 3 }] := by
  have hm : messageMatchesSecurity "leaked password in config" = true := by decide
  simp [apply_security_heuristics, heuristicStep, hm]
  norm_num

/-- C6: the security heuristic pass is idempotent — applying
`apply_security_heuristics` twice yields the same list as applying it once,
because a finding whose category is already `security` is skipped by the
escalation rule. -/
theorem apply_security_heuristics_idem (findings : List Finding) :
    apply_security_heuristics (apply_security_heuristics findings) =
      apply_security_heuristics findings := by
  unfold apply_security_heuristics
  rw [List.map_map]
  exact List.map_congr_left fun f _ => heuristicStep_idem f

/-- C7: the security heuristic pass returns a list of the same length with
the same findings in the same order, where for each finding only category,
severity and confidence may change: file, hunk header, message, suggested
patch and line hint are all unchanged. -/
theorem apply_security_heuristics_frame (findings : List Finding) :
    (apply_security_heuristics findings).length = findings.length ∧
    List.Forall₂ (fun f g => f.file = g.file ∧ f.hunk_header = g.hunk_header ∧
        f.message = g.message ∧ f.suggested_patch = g.suggested_patch ∧
        f.line_hint = g.line_hint)
      findings (apply_security_heuristics findings) := by
  refine ⟨apply_security_heuristics_length findings, ?_⟩
  unfold apply_security_heuristics
  rw [List.forall₂_map_right_iff, List.forall₂_same]
  exact fun f _ => heuristicStep_frame f

/-! ## Lemmas about the normalizer and the review pipeline -/

/-- Both crash sites of the findings loop produce the same uncaught
`NameError`. -/
lemma parseFindingsList_error (xs : List Json) :
    parseFindingsList xs = .error (.nameError "hunk") := by
  unfold parseFindingsList
  split_ifs <;> rfl

/-- Every call of `_parse_findings_response` ends in the `NameError` on the
unbound variable `hunk`, whatever `json.loads` returns. -/
lemma parseFindingsResponse_error (jsonLoads : String → ParsedResponse)
    (response_text : String) :
    parseFindingsResponse jsonLoads response_text = .error (.nameError "hunk") := by
  unfold parseFindingsResponse
  cases jsonLoads response_text with
  | jsonError => rfl
  | value v =>
      cases v with
      | null => rfl
      | bool b => rfl
      | num q => rfl
      | str s => rfl
      | arr xs => exact parseFindingsList_error xs
      | obj fields =>
          cases h : fields.lookup "findings" with
          | none => simp [h]
          | some j => cases j <;> simp [h, parseFindingsList_error]

/-- The diagnostic fallback is a one-element list. -/
lemma createDummyFinding_length (hunk : Hunk) (message : String) :
    (createDummyFinding hunk message).length = 1 := rfl

/-- Every adapter call returns at least one finding: a transport failure
yields the diagnostic finding, and a transport success feeds the raw text to
the normalizer, whose `NameError` the adapter handler converts into the
diagnostic finding as well. -/
lemma clientReviewHunk_length_pos (jsonLoads : String → ParsedResponse)
    (transport : LLMClient → Hunk → Option String → Except BackendError String)
    (client : LLMClient) (hunk : Hunk) (guidelines : Option String) :
    1 ≤ (clientReviewHunk jsonLoads transport client hunk guidelines).length := by
  unfold clientReviewHunk
  cases transport client hunk guidelines with
  | error e => simp [createDummyFinding]
  | ok raw => simp [parseFindingsResponse_error, createDummyFinding]

/-- For a supported backend identifier the module-level `review_hunk` never
raises and always yields at least one finding. -/
lemma review_hunk_supported (backend : String)
    (hb : backend = "amazon_q" ∨ backend = "bedrock" ∨ backend = "openai")
    (inEventLoop : Bool) (jsonLoads : String → ParsedResponse)
    (transport : LLMClient → Hunk → Option String → Except BackendError String)
    (hunk : Hunk) (guidelines : Option String) :
    ∃ findings, review_hunk backend inEventLoop jsonLoads transport hunk guidelines =
      .ok findings ∧ 1 ≤ findings.length := by
  obtain ⟨c, hc⟩ : ∃ c, get_llm_client backend = .ok c := by
    rcases hb with h | h | h <;> subst h <;> exact ⟨_, rfl⟩
  unfold review_hunk
  rw [hc]
  cases inEventLoop with
  | true => exact ⟨_, rfl, by simp [createDummyFinding]⟩
  | false =>
      exact ⟨_, rfl, clientReviewHunk_length_pos jsonLoads transport c hunk guidelines⟩

/-- The review loop adds at least one finding per hunk on top of whatever is
already accumulated. -/
lemma reviewLoop_foldl_length (backend : String)
    (hb : backend = "amazon_q" ∨ backend = "bedrock" ∨ backend = "openai")
    (inEventLoop : Bool) (jsonLoads : String → ParsedResponse)
    (transport : LLMClient → Hunk → Option String → Except BackendError String)
    (guidelines : Option String) :
    ∀ (hunks : List Hunk) (acc : List Finding),
      acc.length + hunks.length ≤
        (hunks.foldl (reviewLoopStep backend inEventLoop jsonLoads transport guidelines)
          acc).length := by
  intro hunks
  induction hunks with
  | nil => intro acc; simp
  | cons h t ih =>
      intro acc
      obtain ⟨fs, hfs, hlen⟩ :=
        review_hunk_supported backend hb inEventLoop jsonLoads transport h guidelines
      have hstep : reviewLoopStep backend inEventLoop jsonLoads transport guidelines acc h =
          acc ++ fs := by
        unfold reviewLoopStep
        rw [hfs]
      rw [List.foldl_cons, hstep]
      have := ih (acc ++ fs)
      simp only [List.length_append, List.length_cons] at this ⊢
      omega

/-- C1: for every non-empty hunk sequence reviewed through a supported
backend, the review pipeline (one `review_hunk` call per hunk, results
concatenated, heuristic pass applied) yields at least one finding per hunk:
the total finding count is at least the hunk count and no hunk is silently
dropped. -/
theorem review_command_findings_ge_hunks (backend : String)
    (hb : backend = "amazon_q" ∨ backend = "bedrock" ∨ backend = "openai")
    (inEventLoop : Bool) (jsonLoads : String → ParsedResponse)
    (transport : LLMClient → Hunk → Option String → Except BackendError String)
    (hunks : List Hunk) (guidelines : Option String) (max_concurrency : Nat)
    (hne : hunks ≠ []) :
    hunks.length ≤
      (reviewCommandFindings backend inEventLoop jsonLoads transport hunks
        guidelines max_concurrency).length := by
  unfold reviewCommandFindings
  rw [apply_security_heuristics_length]
  have h := reviewLoop_foldl_length backend hb inEventLoop jsonLoads transport
    guidelines hunks []
  simpa [reviewLoop] using h

/-- Witness for C1: one concrete hunk through the amazon_q backend with a
concrete transport yields at least one finding. -/
theorem review_command_findings_ge_hunks_witness :
    ("amazon_q" = "amazon_q" ∨ "amazon_q" = "bedrock" ∨ "amazon_q" = "openai") ∧
    [sampleHunk] ≠ [] ∧
    1 ≤ (reviewCommandFindings "amazon_q" false failingLoads sampleTransport
      [sampleHunk] none 4).length :=
  ⟨Or.inl rfl, by simp,
    review_command_findings_ge_hunks "amazon_q" (Or.inl rfl) false failingLoads
      sampleTransport [sampleHunk] none 4 (by simp)⟩

/-- C2: the claim that the normalizer is total (never raises, any internal
error degrades to a diagnostic finding) fails on the code: for every model
of `json.loads` and every input string, `_parse_findings_response` raises
`NameError` on the unbound variable `hunk` instead of returning findings —
even its `except` handlers evaluate `hunk` and re-raise. -/
theorem parse_findings_response_always_raises (jsonLoads : String → ParsedResponse)
    (response_text : String) :
    parseFindingsResponse jsonLoads response_text =
      .error (.nameError "hunk") :=
  parseFindingsResponse_error jsonLoads response_text

/-- C3: evaluating the normalizer on a valid JSON array holding one
well-formed finding object raises the `NameError` on the unbound `hunk`
(at the `Finding(file=hunk.file_path, ...)` construction) instead of
returning the one matching finding the claim requires. -/
theorem parse_well_formed_array_raises :
    parseFindingsResponse wellFormedLoads
        "[severity major category logic message bug confidence 0.9]" =
      .error (.nameError "hunk") := rfl

/-- C4: evaluating the normalizer on an input that is not parseable as JSON
raises the `NameError` on the unbound `hunk` (inside the
`except json.JSONDecodeError` handler) instead of returning the single
diagnostic finding the claim requires. -/
theorem parse_malformed_input_raises :
    parseFindingsResponse failingLoads "this is not json" =
      .error (.nameError "hunk") := rfl

/-- C9: client selection fails exactly on unsupported identifiers —
`get_llm_client` takes its `ValueError` branch iff the backend is none of
amazon_q, bedrock, openai — and for an unsupported identifier the
module-level `review_hunk` propagates that error at client-construction
time: the result is the same fixed configuration error for every transport,
so no hunk is ever dispatched to a backend. -/
theorem get_llm_client_config_error (backend : String) :
    (isConfigError (get_llm_client backend) = true ↔
      ¬(backend = "amazon_q" ∨ backend = "bedrock" ∨ backend = "openai")) ∧
    (¬(backend = "amazon_q" ∨ backend = "bedrock" ∨ backend = "openai") →
      ∀ (inEventLoop : Bool) (jsonLoads : String → ParsedResponse)
        (transport : LLMClient → Hunk → Option String → Except BackendError String)
        (hunk : Hunk) (guidelines : Option String),
        review_hunk backend inEventLoop jsonLoads transport hunk guidelines =
          .error ("Unsupported LLM backend: " ++ backend)) := by
  constructor
  · unfold get_llm_client isConfigError
    split_ifs with h1 h2 h3 <;> simp_all
  · intro hns inEventLoop jsonLoads transport hunk guidelines
    push_neg at hns
    simp [review_hunk, get_llm_client, hns.1, hns.2.1, hns.2.2]

/-- Witness for C9: the unsupported identifier `llama` makes `review_hunk`
return the configuration error on a concrete hunk and transport. -/
theorem get_llm_client_config_error_witness :
    review_hunk "llama" false failingLoads sampleTransport sampleHunk none =
      .error ("Unsupported LLM backend: " ++ "llama") :=
  (get_llm_client_config_error "llama").2 (by decide) false failingLoads
    sampleTransport sampleHunk none

/-- C10: the `max_concurrency` option of the review command has no effect on
the result — for a fixed backend, parser, transport, hunk sequence and
guidelines, any two concurrency values produce the same finding list,
because the loop reviews hunks one at a time and never reads the option. -/
theorem review_command_concurrency_irrelevant (backend : String)
    (inEventLoop : Bool) (jsonLoads : String → ParsedResponse)
    (transport : LLMClient → Hunk → Option String → Except BackendError String)
    (hunks : List Hunk) (guidelines : Option String) (c1 c2 : Nat) :
    reviewCommandFindings backend inEventLoop jsonLoads transport hunks guidelines c1 =
      reviewCommandFindings backend inEventLoop jsonLoads transport hunks guidelines c2 :=
  rfl

/-! ## Lemmas about the severity aggregation -/

/-- The counting step touches the blocking bucket exactly on severity
`blocking`. -/
lemma statsStep_blocking (s : ReviewStats) (f : Finding) :
    (statsStep s f).blocking =
      s.blocking + (if f.severity = "blocking" then 1 else 0) := by
  unfold statsStep
  split_ifs <;> simp_all

/-- The counting step touches the major bucket exactly on severity
`major`. -/
lemma statsStep_major (s : ReviewStats) (f : Finding) :
    (statsStep s f).major = s.major + (if f.severity = "major" then 1 else 0) := by
  unfold statsStep
  split_ifs <;> simp_all

/-- The counting step touches the minor bucket exactly on severity
`minor`. -/
lemma statsStep_minor (s : ReviewStats) (f : Finding) :
    (statsStep s f).minor = s.minor + (if f.severity = "minor" then 1 else 0) := by
  unfold statsStep
  split_ifs <;> simp_all

/-- The counting step touches the nit bucket exactly on severity `nit`. -/
lemma statsStep_nit (s : ReviewStats) (f : Finding) :
    (statsStep s f).nit = s.nit + (if f.severity = "nit" then 1 else 0) := by
  unfold statsStep
  split_ifs <;> simp_all

/-- Folding the counting step counts the findings with severity
`blocking`. -/
lemma foldl_statsStep_blocking (fs : List Finding) :
    ∀ s : ReviewStats, (fs.foldl statsStep s).blocking =
      s.blocking + fs.countP (fun f => decide (f.severity = "blocking")) := by
  induction fs with
  | nil => intro s; simp
  | cons f t ih =>
      intro s
      rw [List.foldl_cons, ih, statsStep_blocking, List.countP_cons]
      by_cases h : f.severity = "blocking" <;> simp [h] <;> omega

/-- Folding the counting step counts the findings with severity `major`. -/
lemma foldl_statsStep_major (fs : List Finding) :
    ∀ s : ReviewStats, (fs.foldl statsStep s).major =
      s.major + fs.countP (fun f => decide (f.severity = "major")) := by
  induction fs with
  | nil => intro s; simp
  | cons f t ih =>
      intro s
      rw [List.foldl_cons, ih, statsStep_major, List.countP_cons]
      by_cases h : f.severity = "major" <;> simp [h] <;> omega

/-- Folding the counting step counts the findings with severity `minor`. -/
lemma foldl_statsStep_minor (fs : List Finding) :
    ∀ s : ReviewStats, (fs.foldl statsStep s).minor =
      s.minor + fs.countP (fun f => decide (f.severity = "minor")) := by
  induction fs with
  | nil => intro s; simp
  | cons f t ih =>
      intro s
      rw [List.foldl_cons, ih, statsStep_minor, List.countP_cons]
      by_cases h : f.severity = "minor" <;> simp [h] <;> omega

/-- Folding the counting step counts the findings with severity `nit`. -/
lemma foldl_statsStep_nit (fs : List Finding) :
    ∀ s : ReviewStats, (fs.foldl statsStep s).nit =
      s.nit + fs.countP (fun f => decide (f.severity = "nit")) := by
  induction fs with
  | nil => intro s; simp
  | cons f t ih =>
      intro s
      rw [List.foldl_cons, ih, statsStep_nit, List.countP_cons]
      by_cases h : f.severity = "nit" <;> simp [h] <;> omega

/-- C8: aggregation counts findings per severity bucket and in total — the
severities `[blocking, blocking, major, minor, nit, nit, nit]` give stats
blocking 2, major 1, minor 1, nit 3, total 7; and for every finding list
each named bucket counts exactly the findings with that severity while the
total counts all findings, so severities outside the four named buckets
(such as `info`) appear in the total and in no bucket. -/
theorem summarize_stats_buckets :
    summarizeStats
        (["blocking", "blocking", "major", "minor", "nit", "nit", "nit"].map
          findingWithSeverity) =
      { blocking := 2, major := 1, minor := 1, nit := 3, total := 7 } ∧
    ∀ findings : List Finding,
      (summarizeStats findings).blocking =
        findings.countP (fun f => decide (f.severity = "blocking")) ∧
      (summarizeStats findings).major =
        findings.countP (fun f => decide (f.severity = "major")) ∧
      (summarizeStats findings).minor =
        findings.countP (fun f => decide (f.severity = "minor")) ∧
      (summarizeStats findings).nit =
        findings.countP (fun f => decide (f.severity = "nit")) ∧
      (summarizeStats findings).total = findings.length := by
  constructor
  · decide
  · intro findings
    refine ⟨?_, ?_, ?_, ?_, rfl⟩ <;>
      simp [summarizeStats, foldl_statsStep_blocking, foldl_statsStep_major,
        foldl_statsStep_minor, foldl_statsStep_nit]

end QRev
